import Mathlib

set_option maxRecDepth 8192

/-! # A shallow embedding of the cargo-husky build script (src/build.rs)

The filesystem is modelled as an association list from absolute paths
(lists of components) to entries; a file entry carries its text content
and its POSIX permission bits.  Every function below is a direct
translation of the Rust function of the same name; the Unix (not
Windows) variants of the platform-conditional functions are modelled.
OUT_DIR is modelled as an absolute path that is always present and
valid unicode, so the canonicalization branch of resolve_gitdir and
the env::VarError error case never arise in the model. -/

abbrev FsPath := List String

inductive FsEntry where
  | dir : FsEntry
  | file : String → Nat → FsEntry
  deriving DecidableEq

abbrev FileSystem := List (FsPath × FsEntry)

def fsLookup (fs : FileSystem) (p : FsPath) : Option FsEntry :=
  match fs.find? (fun e => e.1 == p) with
  | some e => some e.2
  | none => none

def fsIsDir (fs : FileSystem) (p : FsPath) : Bool :=
  match fsLookup fs p with
  | some FsEntry.dir => true
  | _ => false

def fsInsert (fs : FileSystem) (p : FsPath) (e : FsEntry) : FileSystem :=
  (p, e) :: fs.filter (fun q => q.1 != p)

/-- Writing through an open handle appends to the (just truncated) file. -/
def fsWriteFile (fs : FileSystem) (p : FsPath) (text : String) : FileSystem :=
  match fsLookup fs p with
  | some (FsEntry.file old m) => fsInsert fs p (FsEntry.file (old ++ text) m)
  | _ => fs

/-- Directory enumeration: the entries whose path is one component below `p`. -/
def fsChildren (fs : FileSystem) (p : FsPath) : List (FsPath × FsEntry) :=
  fs.filter (fun e => !e.1.isEmpty && e.1.dropLast == p)

/-! ## Character-list string primitives

These mirror the Rust string operations used by build.rs.  They are
written over `List Char` so that concrete instances evaluate inside the
kernel. -/

def splitOnChar (sep : Char) (cur : List Char) : List Char → List (List Char)
  | [] => [cur.reverse]
  | c :: rest =>
    if c == sep then cur.reverse :: splitOnChar sep [] rest
    else splitOnChar sep (c :: cur) rest

def dropFinalCR (l : List Char) : List Char :=
  match l.getLast? with
  | some c => if c == '\r' then l.dropLast else l
  | none => l

/-- `BufRead::lines`: split at newline bytes; a line that was terminated by
\x22\r\n\x22 loses the carriage return, a final fragment without a newline is
kept as written, and a trailing newline produces no extra empty line. -/
def fileLines (content : String) : List String :=
  let parts := splitOnChar '\n' [] content.data
  let front := (parts.dropLast).map dropFinalCR
  let lastPart := parts.getLastD []
  (if lastPart.isEmpty then front else front ++ [lastPart]).map String.mk

/-- `str::trim_right_matches(&['\n', '\r'])`. -/
def trimNewlines (s : String) : String :=
  String.mk ((s.data.reverse.dropWhile (fun c => c == '\n' || c == '\r')).reverse)

/-- `PathBuf::from` on an absolute path string: the slash-separated components. -/
def parsePath (s : String) : FsPath :=
  ((splitOnChar '/' [] s.data).filter (fun l => !l.isEmpty)).map String.mk

/-- `str::starts_with`. -/
def strStartsWith (s pre : String) : Bool :=
  pre.data.isPrefixOf s.data

/-- `str::contains` with a string pattern: substring search. -/
def strContains (s sub : String) : Bool :=
  (List.range (s.data.length + 1)).any (fun k => sub.data.isPrefixOf (s.data.drop k))

def unlines (ls : List String) : String :=
  String.join (ls.map (fun l => l ++ "\n"))

/-! ## Build-time inputs -/

/-- The compile-time environment strings consumed by build.rs, plus OUT_DIR. -/
structure BuildEnv where
  version : String
  homepage : String
  manifest_dir : String
  out_dir : FsPath

/-- The cargo feature toggles read through `cfg!`. -/
structure Features where
  run_for_all : Bool
  run_cargo_test : Bool
  run_cargo_check : Bool
  run_cargo_clippy : Bool
  run_cargo_fmt : Bool
  user_hooks : Bool
  prepush_hook : Bool
  precommit_hook : Bool
  postmerge_hook : Bool

inductive IoKind where
  | notFound : IoKind
  | isADirectory : IoKind
  deriving DecidableEq

inductive Error where
  | GitDirNotFound : Error
  | Io : IoKind → Error
  | OutDir : Error
  | InvalidUserHooksDir : FsPath → Error
  | EmptyUserHook : FsPath → Error
  deriving DecidableEq

/-! ## resolve_gitdir -/

/-- One iteration of the resolve_gitdir loop body at directory `dir`:
`some r` when the `.git` entry of `dir` decides the outcome, `none` when
no `.git` entry exists there and the walk must pop to the parent. -/
def gitEntryStep (fs : FileSystem) (dir : FsPath) : Option (Except Error FsPath) :=
  match fsLookup fs (dir ++ [".git"]) with
  | some FsEntry.dir => some (Except.ok (dir ++ [".git"]))
  | some (FsEntry.file content _) =>
    let target := parsePath (trimNewlines content)
    some (if fsIsDir fs target then Except.ok target else Except.error Error.GitDirNotFound)
  | none => none

/-- The upward walk.  The current directory is carried with its components
reversed so that `PathBuf::pop` is list `tail` and the recursion is
structural; popping at the filesystem root fails. -/
def resolveAux (fs : FileSystem) : List String → Except Error FsPath
  | [] =>
    match gitEntryStep fs [] with
    | some r => r
    | none => Except.error Error.GitDirNotFound
  | c :: rest =>
    match gitEntryStep fs ((c :: rest).reverse) with
    | some r => r
    | none => resolveAux fs rest

def resolve_gitdir (env : BuildEnv) (fs : FileSystem) : Except Error FsPath :=
  resolveAux fs env.out_dir.reverse

/-! ## hook_already_exists -/

/-- Translation of `hook_already_exists`.  Opening a missing file fails
(`false`); opening a directory either fails (Windows) or succeeds with
every subsequent read failing, which hits the `Some(Err(..))` arm
(`false` on Unix as well). -/
def hook_already_exists (env : BuildEnv) (fs : FileSystem) (hook : FsPath) : Bool :=
  match fsLookup fs hook with
  | none => false
  | some FsEntry.dir => false
  | some (FsEntry.file content _) =>
    match (fileLines content)[2]? with
    | none => true
    | some ver_line =>
      if !(strContains ver_line "This hook was set by cargo-husky") then true
      else strContains ver_line ("This hook was set by cargo-husky v" ++ env.version)

/-! ## write_script -/

def raw_cmd (c : String) : String := "\necho '+" ++ c ++ "'\n" ++ c

def cmd_no_sub (all : Bool) (c : String) : String :=
  if all then raw_cmd (c ++ " --all") else raw_cmd c

def cmd_sub (all : Bool) (c subflags : String) : String :=
  if all then raw_cmd (c ++ " --all -- " ++ subflags) else raw_cmd (c ++ " -- " ++ subflags)

/-- The `script` string built by successive `+=` in `write_script`. -/
def script_body (f : Features) : String :=
  let s := ""
  let s := if f.run_cargo_test then s ++ cmd_no_sub f.run_for_all "cargo test" else s
  let s := if f.run_cargo_check then s ++ cmd_no_sub f.run_for_all "cargo check" else s
  let s := if f.run_cargo_clippy then s ++ cmd_sub f.run_for_all "cargo clippy" "-D warnings" else s
  let s := if f.run_cargo_fmt then s ++ cmd_sub f.run_for_all "cargo fmt" "--check" else s
  s

def renderPath (p : FsPath) : String := String.intercalate "/" ("" :: p)

def script_header (env : BuildEnv) : String :=
  "#!/bin/sh\n#\n# This hook was set by cargo-husky v" ++ env.version ++ ": " ++ env.homepage ++
  "\n# Generated by script " ++ env.manifest_dir ++ "/build.rs" ++
  "\n# Output at " ++ renderPath env.out_dir ++ "\n#\n\nset -e\n"

/-- The full text written by `write_script` (`writeln!` appends a newline). -/
def write_script (env : BuildEnv) (f : Features) : String :=
  script_header env ++ script_body f ++ "\n"

/-! ## create_executable_file (Unix variant) -/

/-- `OpenOptions::new().write(true).create(true).truncate(true).mode(0o755).open(path)`.
Per open(2), the 0o755 mode argument is used only when the call creates
the file; opening an existing file truncates it but leaves its permission
bits unchanged.  A missing or non-directory parent fails, as does opening
a directory for writing.  The process umask is not modelled. -/
def create_executable_file (fs : FileSystem) (p : FsPath) : Except Error FileSystem :=
  if fsIsDir fs p.dropLast then
    match fsLookup fs p with
    | some FsEntry.dir => Except.error (Error.Io IoKind.isADirectory)
    | some (FsEntry.file _ m) => Except.ok (fsInsert fs p (FsEntry.file "" m))
    | none => Except.ok (fsInsert fs p (FsEntry.file "" 0o755))
  else Except.error (Error.Io IoKind.notFound)

/-! ## install_hook -/

def install_hook (env : BuildEnv) (f : Features) (hook : String) (fs : FileSystem) :
    Except Error Unit × FileSystem :=
  match resolve_gitdir env fs with
  | Except.error e => (Except.error e, fs)
  | Except.ok g =>
    let hook_path := g ++ ["hooks", hook]
    if hook_already_exists env fs hook_path then (Except.ok (), fs)
    else
      match create_executable_file fs hook_path with
      | Except.error e => (Except.error e, fs)
      | Except.ok fs2 => (Except.ok (), fsWriteFile fs2 hook_path (write_script env f))

/-! ## install_user_hook -/

def user_hook_marker (env : BuildEnv) : String :=
  "# This hook was set by cargo-husky v" ++ env.version ++ ": " ++ env.homepage

/-- The three `lines.insert` calls of `install_user_hook`. -/
def adopt_lines (marker : String) (lines : List String) : List String :=
  let ls := if strStartsWith (lines.headD "") "#!" then lines else "#" :: lines
  match ls with
  | [] => []
  | l0 :: rest => l0 :: "#" :: marker :: rest

/-- Translation of `install_user_hook`.  Note that `dst` is the hooks
directory: the source consults `hook_already_exists(dst)` on that
directory and only afterwards joins the file name onto it. -/
def install_user_hook (env : BuildEnv) (src dst : FsPath) (fs : FileSystem) :
    Except Error Unit × FileSystem :=
  if hook_already_exists env fs dst then (Except.ok (), fs)
  else
    match fsLookup fs src with
    | none => (Except.error (Error.Io IoKind.notFound), fs)
    | some FsEntry.dir => (Except.error (Error.Io IoKind.isADirectory), fs)
    | some (FsEntry.file content _) =>
      let lines := fileLines content
      if lines.isEmpty then (Except.error (Error.EmptyUserHook src), fs)
      else
        let dst_file_path := dst ++ [src.getLastD ""]
        match create_executable_file fs dst_file_path with
        | Except.error e => (Except.error e, fs)
        | Except.ok fs2 =>
          (Except.ok (), fsWriteFile fs2 dst_file_path
            (unlines (adopt_lines (user_hook_marker env) lines)))

/-! ## install_user_hooks -/

/-- `is_executable_file` (Unix variant) on a directory entry. -/
def is_executable_file (e : FsEntry) : Bool :=
  match e with
  | FsEntry.dir => false
  | FsEntry.file _ mode => mode &&& 0o555 == 0o555

def installUserHookList (env : BuildEnv) (dst : FsPath) :
    List FsPath → FileSystem → Except Error Unit × FileSystem
  | [], fs => (Except.ok (), fs)
  | p :: rest, fs =>
    match install_user_hook env p dst fs with
    | (Except.ok _, fs2) => installUserHookList env dst rest fs2
    | (Except.error e, fs2) => (Except.error e, fs2)

def install_user_hooks (env : BuildEnv) (fs : FileSystem) : Except Error Unit × FileSystem :=
  match resolve_gitdir env fs with
  | Except.error e => (Except.error e, fs)
  | Except.ok git_dir =>
    let user_hooks_dir := git_dir.dropLast ++ [".cargo-husky", "hooks"]
    if !fsIsDir fs user_hooks_dir then
      (Except.error (Error.InvalidUserHooksDir user_hooks_dir), fs)
    else
      let hook_paths :=
        ((fsChildren fs user_hooks_dir).filter (fun e => is_executable_file e.2)).map
          (fun e => e.1)
      if hook_paths.isEmpty then
        (Except.error (Error.InvalidUserHooksDir user_hooks_dir), fs)
      else
        installUserHookList env (git_dir ++ ["hooks"]) hook_paths fs

/-! ## install and main -/

def install (env : BuildEnv) (f : Features) (fs : FileSystem) :
    Except Error Unit × FileSystem :=
  if f.user_hooks then install_user_hooks env fs
  else
    match (if f.prepush_hook then install_hook env f "pre-push" fs else (Except.ok (), fs)) with
    | (Except.error e, fs1) => (Except.error e, fs1)
    | (Except.ok _, fs1) =>
      match (if f.precommit_hook then install_hook env f "pre-commit" fs1
             else (Except.ok (), fs1)) with
      | (Except.error e, fs2) => (Except.error e, fs2)
      | (Except.ok _, fs2) =>
        if f.postmerge_hook then install_hook env f "post-merge" fs2 else (Except.ok (), fs2)

/-- Translation of `main` (the name `main` itself is reserved in Lean). -/
def mainEntry (env : BuildEnv) (f : Features) (fs : FileSystem) :
    Except Error Unit × FileSystem :=
  match install env f fs with
  | (Except.error Error.GitDirNotFound, fs1) => (Except.ok (), fs1)
  | r => r

/-! ## Spec-side step catalog (for the generated-script order claim) -/

def concatAll : List String → String
  | [] => ""
  | s :: rest => s ++ concatAll rest

/-- Modelled from the spec: the fixed command-step catalog, in the spec's
declared order test, check, lint, format-check, paired with its
enablement flag. -/
def spec_step_catalog (f : Features) : List (Bool × String) :=
  [(f.run_cargo_test, cmd_no_sub f.run_for_all "cargo test"),
   (f.run_cargo_check, cmd_no_sub f.run_for_all "cargo check"),
   (f.run_cargo_clippy, cmd_sub f.run_for_all "cargo clippy" "-D warnings"),
   (f.run_cargo_fmt, cmd_sub f.run_for_all "cargo fmt" "--check")]

/-! # Helper lemmas -/

theorem str_empty_append (s : String) : "" ++ s = s := by
  obtain ⟨l⟩ := s
  rfl

theorem str_append_empty (s : String) : s ++ "" = s := by
  obtain ⟨l⟩ := s
  show String.mk (l ++ []) = String.mk l
  rw [List.append_nil]

theorem str_append_assoc (a b c : String) : a ++ b ++ c = a ++ (b ++ c) := by
  obtain ⟨x⟩ := a
  obtain ⟨y⟩ := b
  obtain ⟨z⟩ := c
  show String.mk (x ++ y ++ z) = String.mk (x ++ (y ++ z))
  rw [List.append_assoc]

theorem fsLookup_fsInsert_self (fs : FileSystem) (p : FsPath) (e : FsEntry) :
    fsLookup (fsInsert fs p e) p = some e := by
  simp [fsLookup, fsInsert, List.find?_cons]

theorem reverse_drop_reverse (l : List String) (j : Nat) (h : j ≤ l.length) :
    (l.reverse.drop j).reverse = l.take (l.length - j) := by
  have h1 := List.reverse_take (l := l) (n := l.length - j)
  rw [Nat.sub_sub_self h] at h1
  rw [← h1, List.reverse_reverse]

theorem gitEntryStep_eq_none (fs : FileSystem) (dir : FsPath)
    (h : fsLookup fs (dir ++ [".git"]) = none) : gitEntryStep fs dir = none := by
  simp [gitEntryStep, h]

theorem resolveAux_nearest (fs : FileSystem) (r : Except Error FsPath) :
    ∀ (rdir : List String) (j : Nat), j ≤ rdir.length →
      (∀ i, i < j → gitEntryStep fs ((rdir.drop i).reverse) = none) →
      gitEntryStep fs ((rdir.drop j).reverse) = some r →
      resolveAux fs rdir = r := by
  intro rdir
  induction rdir with
  | nil =>
    intro j hj hnone hstep
    have hj0 : j = 0 := Nat.le_zero.mp hj
    subst hj0
    have hstep' : gitEntryStep fs [] = some r := hstep
    unfold resolveAux
    rw [hstep']
  | cons c rest ih =>
    intro j hj hnone hstep
    cases j with
    | zero =>
      have hstep' : gitEntryStep fs ((c :: rest).reverse) = some r := hstep
      unfold resolveAux
      rw [hstep']
    | succ j' =>
      have h0 : gitEntryStep fs ((c :: rest).reverse) = none := hnone 0 (Nat.succ_pos _)
      have hrec := ih j' (Nat.succ_le_succ_iff.mp hj)
        (fun i hi => hnone (i + 1) (Nat.succ_lt_succ hi)) hstep
      unfold resolveAux
      rw [h0]
      exact hrec

theorem resolveAux_allnone (fs : FileSystem) :
    ∀ rdir : List String,
      (∀ i, i ≤ rdir.length → gitEntryStep fs ((rdir.drop i).reverse) = none) →
      resolveAux fs rdir = Except.error Error.GitDirNotFound := by
  intro rdir
  induction rdir with
  | nil =>
    intro hnone
    have h0 : gitEntryStep fs [] = none := hnone 0 (Nat.zero_le _)
    unfold resolveAux
    rw [h0]
  | cons c rest ih =>
    intro hnone
    have h0 : gitEntryStep fs ((c :: rest).reverse) = none := hnone 0 (Nat.zero_le _)
    unfold resolveAux
    rw [h0]
    exact ih (fun i hi => hnone (i + 1) (Nat.succ_le_succ hi))

/-- The walk stops at the longest prefix (nearest ancestor) of the start
directory whose `.git` entry decides an outcome, provided every strictly
longer prefix has no `.git` entry at all. -/
theorem resolve_nearest_core (fs : FileSystem) (out : FsPath) (k0 : Nat)
    (r : Except Error FsPath)
    (hk : k0 ≤ out.length)
    (hstep : gitEntryStep fs (out.take k0) = some r)
    (habove : ∀ k, k0 < k → k ≤ out.length → gitEntryStep fs (out.take k) = none) :
    resolveAux fs out.reverse = r := by
  have hlen : out.reverse.length = out.length := List.length_reverse out
  apply resolveAux_nearest fs r out.reverse (out.length - k0)
  · omega
  · intro i hi
    rw [reverse_drop_reverse out i (by omega)]
    exact habove (out.length - i) (by omega) (by omega)
  · rw [reverse_drop_reverse out (out.length - k0) (by omega)]
    rw [Nat.sub_sub_self hk]
    exact hstep

/-! # Claim theorems -/

/-- C3 (amended): if the nearest ancestor of the start directory that has
any `.git` entry at all (prefix `take k0` of OUT_DIR; every strictly
nearer ancestor has none) holds `.git` as a directory, then
resolve_gitdir succeeds and returns that ancestor's `.git` path, no
matter how many levels below it the start directory sits.  The claim's
original form, which does not require the ancestor to be the nearest one
with a `.git` entry, is refuted by
`resolve_gitdir_dir_ancestor_cex`. -/
theorem resolve_gitdir_nearest_git_directory (env : BuildEnv) (fs : FileSystem) (k0 : Nat)
    (hk : k0 ≤ env.out_dir.length)
    (hdir : fsLookup fs (env.out_dir.take k0 ++ [".git"]) = some FsEntry.dir)
    (habove : ∀ k, k0 < k → k ≤ env.out_dir.length →
      fsLookup fs (env.out_dir.take k ++ [".git"]) = none) :
    resolve_gitdir env fs = Except.ok (env.out_dir.take k0 ++ [".git"]) := by
  show resolveAux fs env.out_dir.reverse = _
  apply resolve_nearest_core fs env.out_dir k0 _ hk
  · simp [gitEntryStep, hdir]
  · intro k h1 h2
    exact gitEntryStep_eq_none fs _ (habove k h1 h2)

def exC3_env : BuildEnv := ⟨"1.0.0", "HP", "MD", ["a", "b"]⟩

def exC3_fs : FileSystem :=
  [(["a", ".git"], FsEntry.dir), (["a", "b", ".git"], FsEntry.file "zzz" 0o644)]

/-- C3 counterexample: the start directory /a/b has the ancestor /a
holding `.git` as a directory, yet resolution fails, because the nearer
`.git` regular file at /a/b/.git (whose content is not a directory path)
is met first. -/
theorem resolve_gitdir_dir_ancestor_cex :
    (∃ t, ["a"] ++ t = exC3_env.out_dir) ∧
    fsLookup exC3_fs (["a"] ++ [".git"]) = some FsEntry.dir ∧
    resolve_gitdir exC3_env exC3_fs = Except.error Error.GitDirNotFound := by
  refine ⟨⟨["b"], rfl⟩, rfl, rfl⟩

def exC3w_env : BuildEnv := ⟨"1.0.0", "HP", "MD", ["a", "b"]⟩

def exC3w_fs : FileSystem := [(["a", ".git"], FsEntry.dir)]

theorem resolve_gitdir_nearest_git_directory_witness :
    resolve_gitdir exC3w_env exC3w_fs = Except.ok ["a", ".git"] := by
  have h := resolve_gitdir_nearest_git_directory exC3w_env exC3w_fs 1
    (by decide) rfl
    (by
      intro k h1 h2
      have hk2 : k = 2 := by
        have : exC3w_env.out_dir.length = 2 := rfl
        omega
      subst hk2
      rfl)
  exact h

/-- C4 (confirmed): when the upward walk first meets a `.git` entry that
is a regular file (at the nearest ancestor holding any `.git` entry), the
file's whole text is read, trailing newline and carriage-return
characters are stripped, and the rest is treated as a path: if that path
is a directory it is returned, otherwise resolution fails with
GitDirNotFound — the indirection is followed exactly once, never
recursively.  And when no ancestor up to the filesystem root has a
`.git` entry, resolution fails with GitDirNotFound. -/
theorem resolve_gitdir_indirection (env : BuildEnv) (fs : FileSystem) :
    (∀ k0 content m, k0 ≤ env.out_dir.length →
      fsLookup fs (env.out_dir.take k0 ++ [".git"]) = some (FsEntry.file content m) →
      (∀ k, k0 < k → k ≤ env.out_dir.length →
        fsLookup fs (env.out_dir.take k ++ [".git"]) = none) →
      resolve_gitdir env fs =
        (if fsIsDir fs (parsePath (trimNewlines content)) then
          Except.ok (parsePath (trimNewlines content))
        else Except.error Error.GitDirNotFound)) ∧
    ((∀ k, k ≤ env.out_dir.length → fsLookup fs (env.out_dir.take k ++ [".git"]) = none) →
      resolve_gitdir env fs = Except.error Error.GitDirNotFound) := by
  constructor
  · intro k0 content m hk hfile habove
    show resolveAux fs env.out_dir.reverse = _
    apply resolve_nearest_core fs env.out_dir k0 _ hk
    · simp [gitEntryStep, hfile]
    · intro k h1 h2
      exact gitEntryStep_eq_none fs _ (habove k h1 h2)
  · intro hall
    show resolveAux fs env.out_dir.reverse = _
    apply resolveAux_allnone
    intro i hi
    have hlen : env.out_dir.reverse.length = env.out_dir.length :=
      List.length_reverse env.out_dir
    rw [reverse_drop_reverse env.out_dir i (by omega)]
    exact gitEntryStep_eq_none fs _ (hall (env.out_dir.length - i) (by omega))

def exC4_env : BuildEnv := ⟨"1.0.0", "HP", "MD", ["a", "b"]⟩

def exC4_fs : FileSystem :=
  [(["a", ".git"], FsEntry.file "/g\n" 0o644), (["g"], FsEntry.dir)]

def exC4b_env : BuildEnv := ⟨"1.0.0", "HP", "MD", ["z"]⟩

theorem resolve_gitdir_indirection_witness :
    resolve_gitdir exC4_env exC4_fs = Except.ok ["g"] ∧
    resolve_gitdir exC4b_env ([] : FileSystem) = Except.error Error.GitDirNotFound := by
  constructor
  · have h := (resolve_gitdir_indirection exC4_env exC4_fs).1 1 "/g\n" 0o644
      (by decide) rfl
      (by
        intro k h1 h2
        have hk2 : k = 2 := by
          have : exC4_env.out_dir.length = 2 := rfl
          omega
        subst hk2
        rfl)
    rw [h]
    rfl
  · exact (resolve_gitdir_indirection exC4b_env ([] : FileSystem)).2
      (by
        intro k hk
        have : k = 0 ∨ k = 1 := by
          have : exC4b_env.out_dir.length = 1 := rfl
          omega
        rcases this with h | h <;> (subst h; rfl))

/-- C10 (confirmed): the outcome of resolve_gitdir is the one decided at
the nearest ancestor of the start directory holding any `.git` entry
(directory or file): whenever `take k0` of OUT_DIR is such an ancestor
and every strictly nearer ancestor has no `.git` entry, the result equals
that single ancestor's `gitEntryStep` outcome, whatever the entries at
ancestors above it are — they are never examined. -/
theorem resolve_gitdir_first_ancestor (env : BuildEnv) (fs : FileSystem) (k0 : Nat)
    (r : Except Error FsPath)
    (hk : k0 ≤ env.out_dir.length)
    (hstep : gitEntryStep fs (env.out_dir.take k0) = some r)
    (habove : ∀ k, k0 < k → k ≤ env.out_dir.length →
      fsLookup fs (env.out_dir.take k ++ [".git"]) = none) :
    resolve_gitdir env fs = r := by
  show resolveAux fs env.out_dir.reverse = _
  apply resolve_nearest_core fs env.out_dir k0 _ hk hstep
  intro k h1 h2
  exact gitEntryStep_eq_none fs _ (habove k h1 h2)

def exC10_env : BuildEnv := ⟨"1.0.0", "HP", "MD", ["a", "b"]⟩

def exC10_fs : FileSystem := [([".git"], FsEntry.dir), (["a", ".git"], FsEntry.dir)]

theorem resolve_gitdir_first_ancestor_witness :
    resolve_gitdir exC10_env exC10_fs = Except.ok ["a", ".git"] := by
  have h := resolve_gitdir_first_ancestor exC10_env exC10_fs 1
    (Except.ok (["a", "b"].take 1 ++ [".git"]))
    (by decide) rfl
    (by
      intro k h1 h2
      have hk2 : k = 2 := by
        have : exC10_env.out_dir.length = 2 := rfl
        omega
      subst hk2
      rfl)
  exact h

/-- C2 (amended): hook_already_exists returns true (do not touch) exactly
when the file opens as a regular file and either has fewer than 3 lines,
or its 3rd line does not contain the substring
"This hook was set by cargo-husky", or its 3rd line contains that
substring together with the CURRENT tool version.  It returns false
(safe to write, i.e. regenerate) when the file does not open — absent or
a directory — or when the 3rd line contains the substring with a
DIFFERENT version: the tool regenerates, i.e. upgrades, its own stale
hooks.  The claim's original version-handling (different version
protected, same version safe to write) is refuted by
`hook_already_exists_cex`. -/
theorem hook_already_exists_spec (env : BuildEnv) (fs : FileSystem) (p : FsPath) :
    hook_already_exists env fs p = true ↔
      ∃ content m, fsLookup fs p = some (FsEntry.file content m) ∧
        ((fileLines content)[2]? = none ∨
         ∃ ver_line, (fileLines content)[2]? = some ver_line ∧
           (strContains ver_line "This hook was set by cargo-husky" = false ∨
            strContains ver_line ("This hook was set by cargo-husky v" ++ env.version) = true)) := by
  cases hl : fsLookup fs p with
  | none =>
    have hval : hook_already_exists env fs p = false := by
      unfold hook_already_exists
      rw [hl]
    simp [hval, hl]
  | some e =>
    cases e with
    | dir =>
      have hval : hook_already_exists env fs p = false := by
        unfold hook_already_exists
        rw [hl]
      simp [hval, hl]
    | file content m =>
      have hred : hook_already_exists env fs p =
          (match (fileLines content)[2]? with
           | none => true
           | some ver_line =>
             if !(strContains ver_line "This hook was set by cargo-husky") then true
             else strContains ver_line ("This hook was set by cargo-husky v" ++ env.version)) := by
        unfold hook_already_exists
        rw [hl]
      rw [hred]
      cases h2 : (fileLines content)[2]? with
      | none =>
        constructor
        · intro _
          exact ⟨content, m, rfl, Or.inl h2⟩
        · intro _
          rfl
      | some ver_line =>
        show (if !(strContains ver_line "This hook was set by cargo-husky") then true
              else strContains ver_line
                ("This hook was set by cargo-husky v" ++ env.version)) = true ↔ _
        cases hbase : strContains ver_line "This hook was set by cargo-husky" with
        | false =>
          constructor
          · intro _
            exact ⟨content, m, rfl, Or.inr ⟨ver_line, h2, Or.inl hbase⟩⟩
          · intro _
            rfl
        | true =>
          constructor
          · intro hfull
            exact ⟨content, m, rfl, Or.inr ⟨ver_line, h2, Or.inr hfull⟩⟩
          · rintro ⟨content2, m2, hc, hrest⟩
            have hc2 : content2 = content := by
              injection hc with hc1
              injection hc1 with hca hcb
              exact hca.symm
            subst hc2
            rcases hrest with hnone | ⟨line2, hline2, hor⟩
            · rw [h2] at hnone
              cases hnone
            · rw [h2] at hline2
              injection hline2 with hl2
              subst hl2
              rcases hor with hb | hf
              · rw [hbase] at hb
                cases hb
              · exact hf

def exC2_env : BuildEnv := ⟨"9.9.9", "HP", "MD", ["o"]⟩

def exC2_sameContent : String :=
  "#!/bin/sh\n#\n# This hook was set by cargo-husky v9.9.9: HP\nx\n"

def exC2_oldContent : String :=
  "#!/bin/sh\n#\n# This hook was set by cargo-husky v0.0.1: HP\nx\n"

def exC2_fsSame : FileSystem := [(["h"], FsEntry.file exC2_sameContent 0o755)]

def exC2_fsOld : FileSystem := [(["h"], FsEntry.file exC2_oldContent 0o755)]

/-- C2 counterexample: a hook whose 3rd line carries the current
version's provenance marker makes hook_already_exists return true,
where the claim demands false ("safe to write"); and a hook whose 3rd
line carries the marker with a different (older) version makes it
return false — the code regenerates it — where the claim demands true
("never upgrades in place"). -/
theorem hook_already_exists_cex :
    strContains ((fileLines exC2_sameContent).getD 2 "")
      ("This hook was set by cargo-husky v" ++ exC2_env.version) = true ∧
    hook_already_exists exC2_env exC2_fsSame ["h"] = true ∧
    strContains ((fileLines exC2_oldContent).getD 2 "")
      "This hook was set by cargo-husky" = true ∧
    strContains ((fileLines exC2_oldContent).getD 2 "")
      ("This hook was set by cargo-husky v" ++ exC2_env.version) = false ∧
    hook_already_exists exC2_env exC2_fsOld ["h"] = false := by
  refine ⟨by decide, by decide, by decide, by decide, by decide⟩

def exC2_foreign : FileSystem := [(["h"], FsEntry.file "echo hi\n" 0o644)]

theorem hook_already_exists_spec_witness :
    hook_already_exists exC2_env exC2_foreign ["h"] = true :=
  (hook_already_exists_spec exC2_env exC2_foreign ["h"]).mpr
    ⟨"echo hi\n", 0o644, rfl, Or.inl rfl⟩

/-- C9 (amended): create_executable_file always truncates — afterwards
the file at the path has empty content — and, the parent directory
existing, the call succeeds on a missing or regular-file target.  The
0755 permission bits are set only when no file previously existed at the
path: a pre-existing file keeps its prior permission bits, because the
mode passed to open(2) applies only at file creation.  The claim's
assertion that the bits are 0755 also over a pre-existing file is
refuted by `create_executable_file_keeps_mode_cex`. -/
theorem create_executable_file_spec (fs : FileSystem) (p : FsPath)
    (hparent : fsIsDir fs p.dropLast = true) :
    (fsLookup fs p = none →
      create_executable_file fs p = Except.ok (fsInsert fs p (FsEntry.file "" 0o755)) ∧
      fsLookup (fsInsert fs p (FsEntry.file "" 0o755)) p = some (FsEntry.file "" 0o755)) ∧
    (∀ content m, fsLookup fs p = some (FsEntry.file content m) →
      create_executable_file fs p = Except.ok (fsInsert fs p (FsEntry.file "" m)) ∧
      fsLookup (fsInsert fs p (FsEntry.file "" m)) p = some (FsEntry.file "" m)) := by
  constructor
  · intro h
    refine ⟨?_, fsLookup_fsInsert_self fs p _⟩
    simp [create_executable_file, hparent, h]
  · intro content m h
    refine ⟨?_, fsLookup_fsInsert_self fs p _⟩
    simp [create_executable_file, hparent, h]

def exC9_fs : FileSystem := [(["d"], FsEntry.dir), (["d", "h"], FsEntry.file "old" 0o644)]

/-- C9 counterexample: a file already present at the path with mode 0644
is truncated but keeps mode 0644, not 0755, after the call. -/
theorem create_executable_file_keeps_mode_cex :
    create_executable_file exC9_fs ["d", "h"] =
      Except.ok [(["d", "h"], FsEntry.file "" 0o644), (["d"], FsEntry.dir)] ∧
    fsLookup [(["d", "h"], FsEntry.file "" 0o644), (["d"], FsEntry.dir)] ["d", "h"] =
      some (FsEntry.file "" 0o644) ∧
    (0o644 : Nat) ≠ 0o755 := by
  refine ⟨rfl, rfl, by decide⟩

def exC9w_fs : FileSystem := [(["d"], FsEntry.dir)]

theorem create_executable_file_spec_witness :
    fsLookup (fsInsert exC9w_fs ["d", "h"] (FsEntry.file "" 0o755)) ["d", "h"] =
      some (FsEntry.file "" 0o755) ∧
    fsLookup (fsInsert exC9_fs ["d", "h"] (FsEntry.file "" 0o644)) ["d", "h"] =
      some (FsEntry.file "" 0o644) :=
  ⟨((create_executable_file_spec exC9w_fs ["d", "h"] rfl).1 rfl).2,
   ((create_executable_file_spec exC9_fs ["d", "h"] rfl).2 "old" 0o644 rfl).2⟩

/-- C6 (confirmed): for a non-empty source line sequence, adoption
inserts exactly the 3 header lines "#", "#", provenance comment at
positions 0, 1, 2 when line 1 does not start with "#!", and exactly the
2 header lines "#", provenance comment at positions 1 and 2 — keeping
the shebang first — when it does; every original line keeps its content
and relative order, and install_user_hook writes exactly these adopted
lines, one per line, to the destination file. -/
theorem user_hook_adoption_header (marker : String) (ls : List String) (h : ls ≠ []) :
    (strStartsWith (ls.headD "") "#!" = false →
      adopt_lines marker ls = "#" :: "#" :: marker :: ls) ∧
    (∀ l0 rest, ls = l0 :: rest → strStartsWith l0 "#!" = true →
      adopt_lines marker ls = l0 :: "#" :: marker :: rest) ∧
    (∀ env fs src dst content m fs2,
      hook_already_exists env fs dst = false →
      fsLookup fs src = some (FsEntry.file content m) →
      fileLines content = ls →
      create_executable_file fs (dst ++ [src.getLastD ""]) = Except.ok fs2 →
      install_user_hook env src dst fs =
        (Except.ok (), fsWriteFile fs2 (dst ++ [src.getLastD ""])
          (unlines (adopt_lines (user_hook_marker env) ls)))) := by
  refine ⟨?_, ?_, ?_⟩
  · intro hns
    unfold adopt_lines
    rw [hns]
    rfl
  · intro l0 rest hls hsb
    subst hls
    unfold adopt_lines
    simp only [List.headD_cons, hsb]
    rfl
  · intro env fs src dst content m fs2 hnot hsrc hlines hcreate
    have hemp : ls.isEmpty = false := by
      cases ls with
      | nil => exact absurd rfl h
      | cons a t => rfl
    unfold install_user_hook
    rw [hnot]
    rw [hsrc]
    show (if (fileLines content).isEmpty then _ else _) = _
    rw [hlines, hemp]
    rw [hcreate]
    rfl

/-- C7 (confirmed): for every combination of enabled command steps, the
generated script is the header followed by the echo+command pair of each
enabled step concatenated in the fixed catalog order test, check, lint,
format-check — skipping the disabled steps — so the order never depends
on how the steps were enabled; in particular, enabling only the test and
format-check steps yields test before format-check. -/
theorem write_script_catalog_order (env : BuildEnv) (f : Features) :
    (write_script env f =
      script_header env ++
        concatAll (((spec_step_catalog f).filter (fun s => s.1)).map (fun s => s.2)) ++ "\n") ∧
    (∀ a uh pp pc pm : Bool,
      write_script env (Features.mk a true false false true uh pp pc pm) =
        script_header env ++
          (cmd_no_sub a "cargo test" ++ cmd_sub a "cargo fmt" "--check") ++ "\n") := by
  constructor
  · obtain ⟨a, t, c, l, m, u, p1, p2, p3⟩ := f
    cases t <;> cases c <;> cases l <;> cases m <;>
      simp [write_script, script_body, spec_step_catalog, concatAll,
            List.filter_cons, List.filter_nil, List.map_cons, List.map_nil,
            str_empty_append, str_append_empty, str_append_assoc]
  · intro a uh pp pc pm
    simp [write_script, script_body,
          str_empty_append, str_append_empty, str_append_assoc]

/-- C5 (confirmed): the entry point returns success when the install
pass fails with GitDirNotFound (the warning is the only effect — the
filesystem it returns is the one the failing pass left), and propagates
every other error kind as a fatal failure.  Within fixed-hook mode a
fatal error of any hook slot aborts the pass immediately: whatever
filesystem states the earlier slots produced (their writes included)
are returned exactly as the failing slot left them, and no later slot
runs — one conjunct per failing slot position, each allowing the
earlier slots to have run arbitrarily. -/
theorem main_failure_policy (env : BuildEnv) (f : Features) (fs : FileSystem) :
    (∀ fs1, install env f fs = (Except.error Error.GitDirNotFound, fs1) →
      mainEntry env f fs = (Except.ok (), fs1)) ∧
    (∀ e fs1, install env f fs = (Except.error e, fs1) → e ≠ Error.GitDirNotFound →
      mainEntry env f fs = (Except.error e, fs1)) ∧
    (f.user_hooks = false → f.prepush_hook = true →
      ∀ e fs1, install_hook env f "pre-push" fs = (Except.error e, fs1) →
      install env f fs = (Except.error e, fs1)) ∧
    (f.user_hooks = false → f.precommit_hook = true →
      ∀ (u1 : Unit) fs1 e fs2,
        (if f.prepush_hook then install_hook env f "pre-push" fs
         else (Except.ok (), fs)) = (Except.ok u1, fs1) →
        install_hook env f "pre-commit" fs1 = (Except.error e, fs2) →
        install env f fs = (Except.error e, fs2)) ∧
    (f.user_hooks = false → f.postmerge_hook = true →
      ∀ (u1 : Unit) fs1 (u2 : Unit) fs2 e fs3,
        (if f.prepush_hook then install_hook env f "pre-push" fs
         else (Except.ok (), fs)) = (Except.ok u1, fs1) →
        (if f.precommit_hook then install_hook env f "pre-commit" fs1
         else (Except.ok (), fs1)) = (Except.ok u2, fs2) →
        install_hook env f "post-merge" fs2 = (Except.error e, fs3) →
        install env f fs = (Except.error e, fs3)) := by
  refine ⟨?_, ?_, ?_, ?_, ?_⟩
  · intro fs1 h
    unfold mainEntry
    rw [h]
  · intro e fs1 h hne
    unfold mainEntry
    rw [h]
    cases e with
    | GitDirNotFound => exact absurd rfl hne
    | Io k => rfl
    | OutDir => rfl
    | InvalidUserHooksDir q => rfl
    | EmptyUserHook q => rfl
  · intro hu hp e fs1 h
    simp [install, hu, hp, h]
  · intro hu hc u1 fs1 e fs2 h1 h2
    simp [install, hu, h1, hc, h2]
  · intro hu hm u1 fs1 u2 fs2 e fs3 h1 h2 h3
    simp [install, hu, h1, h2, hm, h3]

theorem create_error_is_io (fs : FileSystem) (p : FsPath) (e : Error)
    (h : create_executable_file fs p = Except.error e) : ∃ k, e = Error.Io k := by
  unfold create_executable_file at h
  split at h
  · split at h
    · injection h with h1
      exact ⟨IoKind.isADirectory, h1.symm⟩
    · exact Except.noConfusion h
    · exact Except.noConfusion h
  · injection h with h1
    exact ⟨IoKind.notFound, h1.symm⟩

theorem install_user_hook_ne_invalid (env : BuildEnv) (src dst : FsPath) (fs : FileSystem)
    (u : FsPath) :
    (install_user_hook env src dst fs).1 ≠ Except.error (Error.InvalidUserHooksDir u) := by
  intro hcontra
  unfold install_user_hook at hcontra
  split at hcontra
  · simp at hcontra
  · split at hcontra
    · simp at hcontra
    · simp at hcontra
    · dsimp only at hcontra
      split at hcontra
      · simp at hcontra
      · split at hcontra
        · rename_i e heq
          obtain ⟨k, hk⟩ := create_error_is_io _ _ _ heq
          subst hk
          simp at hcontra
        · simp at hcontra

theorem installUserHookList_ne_invalid (env : BuildEnv) (dst u : FsPath) :
    ∀ (ps : List FsPath) (fs : FileSystem),
      (installUserHookList env dst ps fs).1 ≠ Except.error (Error.InvalidUserHooksDir u) := by
  intro ps
  induction ps with
  | nil =>
    intro fs hcontra
    simp [installUserHookList] at hcontra
  | cons p rest ih =>
    intro fs hcontra
    unfold installUserHookList at hcontra
    rw [show install_user_hook env p dst fs =
        ((install_user_hook env p dst fs).1, (install_user_hook env p dst fs).2) from rfl]
      at hcontra
    cases hstep : (install_user_hook env p dst fs).1 with
    | ok v =>
      rw [hstep] at hcontra
      exact ih _ hcontra
    | error e =>
      rw [hstep] at hcontra
      simp at hcontra
      subst hcontra
      exact install_user_hook_ne_invalid env p dst fs u hstep

/-- C8 (confirmed): given that control-directory resolution succeeded
with G, install_user_hooks fails with InvalidUserHooksDir on the
directory parent-of-G/.cargo-husky/hooks exactly when that path is not a
directory or its enumeration yields zero entries passing the
regular-file-with-0o555-permissions eligibility test; and in that case
it returns the filesystem unchanged — no hook file is written. -/
theorem install_user_hooks_invalid_dir (env : BuildEnv) (fs : FileSystem) (G : FsPath)
    (hres : resolve_gitdir env fs = Except.ok G) :
    ((install_user_hooks env fs).1 =
        Except.error (Error.InvalidUserHooksDir (G.dropLast ++ [".cargo-husky", "hooks"])) ↔
      (fsIsDir fs (G.dropLast ++ [".cargo-husky", "hooks"]) = false ∨
       (fsChildren fs (G.dropLast ++ [".cargo-husky", "hooks"])).filter
         (fun e => is_executable_file e.2) = [])) ∧
    ((fsIsDir fs (G.dropLast ++ [".cargo-husky", "hooks"]) = false ∨
      (fsChildren fs (G.dropLast ++ [".cargo-husky", "hooks"])).filter
        (fun e => is_executable_file e.2) = []) →
      install_user_hooks env fs =
        (Except.error (Error.InvalidUserHooksDir (G.dropLast ++ [".cargo-husky", "hooks"])), fs)) := by
  cases hd : fsIsDir fs (G.dropLast ++ [".cargo-husky", "hooks"]) with
  | false =>
    have hval : install_user_hooks env fs =
        (Except.error (Error.InvalidUserHooksDir (G.dropLast ++ [".cargo-husky", "hooks"])), fs) := by
      unfold install_user_hooks
      rw [hres]
      show (if !fsIsDir fs (G.dropLast ++ [".cargo-husky", "hooks"]) then _ else _) = _
      rw [hd]
      rfl
    refine ⟨?_, fun _ => hval⟩
    rw [hval]
    exact iff_of_true rfl (Or.inl rfl)
  | true =>
    cases hfl : (fsChildren fs (G.dropLast ++ [".cargo-husky", "hooks"])).filter
        (fun e => is_executable_file e.2) with
    | nil =>
      have hval : install_user_hooks env fs =
          (Except.error (Error.InvalidUserHooksDir (G.dropLast ++ [".cargo-husky", "hooks"])), fs) := by
        unfold install_user_hooks
        rw [hres]
        show (if !fsIsDir fs (G.dropLast ++ [".cargo-husky", "hooks"]) then _ else _) = _
        rw [hd]
        show (if (((fsChildren fs (G.dropLast ++ [".cargo-husky", "hooks"])).filter
            (fun e => is_executable_file e.2)).map (fun e => e.1)).isEmpty then _ else _) = _
        rw [hfl]
        rfl
      refine ⟨?_, fun _ => hval⟩
      rw [hval]
      exact iff_of_true rfl (Or.inr rfl)
    | cons a rest =>
      have hval : install_user_hooks env fs =
          installUserHookList env (G ++ ["hooks"]) ((a :: rest).map (fun e => e.1)) fs := by
        unfold install_user_hooks
        rw [hres]
        show (if !fsIsDir fs (G.dropLast ++ [".cargo-husky", "hooks"]) then _ else _) = _
        rw [hd]
        show (if (((fsChildren fs (G.dropLast ++ [".cargo-husky", "hooks"])).filter
            (fun e => is_executable_file e.2)).map (fun e => e.1)).isEmpty then _ else _) = _
        rw [hfl]
        rfl
      constructor
      · apply iff_of_false
        · rw [hval]
          exact installUserHookList_ne_invalid env (G ++ ["hooks"]) _ _ fs
        · simp
      · intro hor
        rcases hor with h1 | h2
        · exact absurd h1 (by simp)
        · exact absurd h2 (by simp)

def exC8_env : BuildEnv := ⟨"1.0.0", "HP", "MD", ["r", "o"]⟩

def exC8_fs : FileSystem := [(["r", ".git"], FsEntry.dir)]

theorem install_user_hooks_invalid_dir_witness :
    install_user_hooks exC8_env exC8_fs =
      (Except.error (Error.InvalidUserHooksDir ["r", ".cargo-husky", "hooks"]), exC8_fs) :=
  (install_user_hooks_invalid_dir exC8_env exC8_fs ["r", ".git"] rfl).2 (Or.inl rfl)

def exC1_env : BuildEnv := ⟨"1.0.0", "HP", "MD", ["r", "out"]⟩

def exC1_feats : Features := ⟨false, false, false, false, false, true, false, false, false⟩

def exC1_target : FsPath := ["r", ".git", "hooks", "pre-commit"]

def exC1_fs : FileSystem :=
  [(["r", ".git"], FsEntry.dir),
   (["r", ".git", "hooks"], FsEntry.dir),
   (["r", ".git", "hooks", "pre-commit"], FsEntry.file "echo hi\n" 0o755),
   (["r", ".cargo-husky", "hooks"], FsEntry.dir),
   (["r", ".cargo-husky", "hooks", "pre-commit"],
     FsEntry.file "echo from user hook\n" 0o755)]

/-- C1 (code bug, user-hooks mode): the target hook path holds a foreign
file — the single line "echo hi", whose content lacks the provenance
marker — yet the install pass rewrites it: install_user_hook consults
hook_already_exists on the hooks DIRECTORY (which always reports false)
instead of on the destination file, so the foreign file is truncated and
replaced by the adopted user hook.  In fixed-hook mode the same file
would be protected. -/
theorem user_hooks_mode_overwrites_foreign_hook :
    strContains "echo hi\n" "This hook was set by cargo-husky" = false ∧
    fsLookup exC1_fs exC1_target = some (FsEntry.file "echo hi\n" 0o755) ∧
    (mainEntry exC1_env exC1_feats exC1_fs).1 = Except.ok () ∧
    fsLookup (mainEntry exC1_env exC1_feats exC1_fs).2 exC1_target =
      some (FsEntry.file
        "#\n#\n# This hook was set by cargo-husky v1.0.0: HP\necho from user hook\n" 0o755) ∧
    "#\n#\n# This hook was set by cargo-husky v1.0.0: HP\necho from user hook\n" ≠
      "echo hi\n" := by
  refine ⟨by decide, by decide, rfl, by decide, by decide⟩

def exC6_env : BuildEnv := ⟨"1.0.0", "HP", "MD", ["r", "out"]⟩

def exC6_src : FsPath := ["r", ".cargo-husky", "hooks", "pre-commit"]

def exC6_dst : FsPath := ["r", ".git", "hooks"]

def exC6_fs : FileSystem :=
  [(exC6_dst, FsEntry.dir), (exC6_src, FsEntry.file "echo hi\n" 0o755)]

def exC6_fs2 : FileSystem :=
  fsInsert exC6_fs (exC6_dst ++ ["pre-commit"]) (FsEntry.file "" 0o755)

theorem user_hook_adoption_header_witness :
    adopt_lines "M" ["echo hi"] = ["#", "#", "M", "echo hi"] ∧
    adopt_lines "M" ["#!/bin/sh", "x"] = ["#!/bin/sh", "#", "M", "x"] ∧
    install_user_hook exC6_env exC6_src exC6_dst exC6_fs =
      (Except.ok (), fsWriteFile exC6_fs2 (exC6_dst ++ ["pre-commit"])
        (unlines (adopt_lines (user_hook_marker exC6_env) (fileLines "echo hi\n")))) := by
  refine ⟨?_, ?_, ?_⟩
  · exact (user_hook_adoption_header "M" ["echo hi"] (by decide)).1 (by decide)
  · exact (user_hook_adoption_header "M" ["#!/bin/sh", "x"] (by decide)).2.1
      "#!/bin/sh" ["x"] rfl (by decide)
  · exact (user_hook_adoption_header (user_hook_marker exC6_env) (fileLines "echo hi\n")
      (by decide)).2.2 exC6_env exC6_fs exC6_src exC6_dst "echo hi\n" 0o755 exC6_fs2
      rfl rfl rfl rfl

def w5a_env : BuildEnv := ⟨"1.0.0", "HP", "MD", ["o"]⟩

def w5a_feats : Features := ⟨false, false, false, false, false, false, true, false, false⟩

def w5b_env : BuildEnv := ⟨"1.0.0", "HP", "MD", ["r", "t"]⟩

def w5b_feats : Features := ⟨false, false, false, false, false, true, false, false, false⟩

def w5b_fs : FileSystem := [(["r", ".git"], FsEntry.dir)]

def w5d_feats : Features := ⟨false, false, false, false, false, false, false, true, true⟩

def w5d_fs : FileSystem :=
  [(["r", ".git"], FsEntry.dir), (["r", ".git", "hooks"], FsEntry.file "" 0o644)]

def w5e_env : BuildEnv := ⟨"1.0.0", "HP", "MD", ["r", "t"]⟩

def w5e_feats : Features := ⟨false, false, false, false, false, false, true, true, true⟩

def w5e_pp : FsPath := ["r", ".git", "hooks", "pre-push"]

/-- pre-push is absent (so slot 1 writes it), while a directory sits at
the pre-commit hook path (so slot 2's file creation fails, as open(2)
for writing fails on a directory). -/
def w5e_fs : FileSystem :=
  [(["r", ".git"], FsEntry.dir),
   (["r", ".git", "hooks"], FsEntry.dir),
   (["r", ".git", "hooks", "pre-commit"], FsEntry.dir)]

/-- The state slot 1 leaves: the generated pre-push script written. -/
def w5e_fs1 : FileSystem :=
  fsWriteFile (fsInsert w5e_fs w5e_pp (FsEntry.file "" 0o755)) w5e_pp
    (write_script w5e_env w5e_feats)

def w5f_env : BuildEnv := ⟨"1.0.0", "HP", "MD", ["r", "t"]⟩

def w5f_feats : Features := ⟨false, false, false, false, false, false, false, false, true⟩

def w5f_fs : FileSystem :=
  [(["r", ".git"], FsEntry.dir),
   (["r", ".git", "hooks"], FsEntry.dir),
   (["r", ".git", "hooks", "post-merge"], FsEntry.dir)]

theorem main_failure_policy_witness :
    mainEntry w5a_env w5a_feats [] = (Except.ok (), []) ∧
    mainEntry w5b_env w5b_feats w5b_fs =
      (Except.error (Error.InvalidUserHooksDir ["r", ".cargo-husky", "hooks"]), w5b_fs) ∧
    install w5a_env w5a_feats [] = (Except.error Error.GitDirNotFound, []) ∧
    install w5b_env w5d_feats w5d_fs = (Except.error (Error.Io IoKind.notFound), w5d_fs) ∧
    install w5e_env w5e_feats w5e_fs =
      (Except.error (Error.Io IoKind.isADirectory), w5e_fs1) ∧
    fsLookup w5e_fs w5e_pp = none ∧
    fsLookup w5e_fs1 w5e_pp =
      some (FsEntry.file (write_script w5e_env w5e_feats) 0o755) ∧
    install w5f_env w5f_feats w5f_fs =
      (Except.error (Error.Io IoKind.isADirectory), w5f_fs) := by
  refine ⟨?_, ?_, ?_, ?_, ?_, ?_, ?_, ?_⟩
  · exact (main_failure_policy w5a_env w5a_feats []).1 [] rfl
  · exact (main_failure_policy w5b_env w5b_feats w5b_fs).2.1
      (Error.InvalidUserHooksDir ["r", ".cargo-husky", "hooks"]) w5b_fs rfl (by decide)
  · exact (main_failure_policy w5a_env w5a_feats []).2.2.1 rfl rfl
      Error.GitDirNotFound [] rfl
  · exact (main_failure_policy w5b_env w5d_feats w5d_fs).2.2.2.1 rfl rfl
      () w5d_fs (Error.Io IoKind.notFound) w5d_fs rfl rfl
  · exact (main_failure_policy w5e_env w5e_feats w5e_fs).2.2.2.1 rfl rfl
      () w5e_fs1 (Error.Io IoKind.isADirectory) w5e_fs1 rfl rfl
  · rfl
  · rfl
  · exact (main_failure_policy w5f_env w5f_feats w5f_fs).2.2.2.2 rfl rfl
      () w5f_fs () w5f_fs (Error.Io IoKind.isADirectory) w5f_fs rfl rfl rfl
